import Mathlib

/-!
Shallow embedding of `fetch.go` from the horizon-pkg-fetch repository.

The repository downloads a multi-part package described by a remote
manifest: it fetches the manifest, prechecks it, then downloads and
verifies each part.  Pure data is embedded directly; the effectful pieces
(HTTP, the filesystem) are embedded by explicit state passing: the HTTP
client is a function from URL to a response, a file is an optional list of
bytes, and every function returns the new file state together with the
trace of GET requests it issued.
-/

set_option autoImplicit false

namespace HorizonFetch

/-- A single retrieval location for one part.  Models
`horizonpkg.PartSource` (the type lives in a sibling package of the
repository; its one field used by `fetch.go` is the URL). -/
structure PartSource where
  URL : String

/-- One content part.  Models `horizonpkg.DockerImagePart`: identity,
authoritative expected byte count, ordered mirror list, declared
signatures (spec section 3). -/
structure DockerImagePart where
  ID : String
  Bytes : Nat
  Sources : List PartSource
  Signatures : List String

/-- Provenance metadata: part identity to image repo tag.  Models
`pkg.Meta.Provides.Images`; an association list stands for the Go map. -/
structure PkgProvides where
  Images : List (String × String)

/-- Models the `Meta` block of `horizonpkg.Pkg`. -/
structure PkgMeta where
  Provides : PkgProvides

/-- The package manifest.  Models `horizonpkg.Pkg`: identity, metadata,
and the part mapping (an association list stands for the Go map, the list
order standing for one iteration order of it). -/
structure Pkg where
  ID : String
  Meta : PkgMeta
  Parts : List (String × DockerImagePart)

/-- Behaviour of streaming one response body into the part file with
`io.Copy`: either the whole body arrives, or the copy fails after writing
a portion of it (the written bytes stay in the file, the copy returns an
error message). -/
inductive CopyBehavior
  | ok (bytes : List Nat)
  | ioErr (written : List Nat) (msg : String)

/-- Result of one `client.Get(url)`: a request error, or a response
carrying a status code and a body. -/
inductive GetResult
  | reqError (msg : String)
  | resp (status : Nat) (body : CopyBehavior)

/-- The filesystem as seen by this program: content of the file at each
path, `none` when no file exists there. -/
abbrev FS := String → Option (List Nat)

/-- The open-error kind the source inspects with `os.IsExist`. -/
inductive OpenErr
  | exist
  | other (msg : String)

/-- Whether an open error is an EEXIST error (`os.IsExist`). -/
def isExist : Option OpenErr → Bool
  | some OpenErr.exist => true
  | _ => false

/-- The `tryOpen` helper of `fetchPkgPart` (fetch.go lines 98-100):
`os.OpenFile(partPath, os.O_RDWR|os.O_CREATE, 0600)`.  Without `O_EXCL`
this open succeeds whether or not the file exists - a missing file is
created empty, an existing file is opened unchanged and untruncated - so
on an ordinary filesystem the error component is always `none` and in
particular never an EEXIST error. -/
def tryOpen (fs : Option (List Nat)) : List Nat × Option OpenErr :=
  (fs.getD [], none)

/-- Writing `bytes` into a file opened without truncation, from offset
zero: the tail of any longer previous content survives the write. -/
def writeAt0 (bytes old : List Nat) : List Nat :=
  bytes ++ old.drop bytes.length

/-- Outcome of `fetchPkgPart`: the returned error (`none` is success),
the final content of the file at the part path, and the URLs passed to
`client.Get`, in request order. -/
structure FetchOutcome where
  err : Option String
  file : Option (List Nat)
  gets : List String

/-- The source-iteration loop of `fetchPkgPart` (fetch.go lines 145-176):
try each source in declared order; a request error or a non-200 status
logs and moves on without touching the file; otherwise the body is
streamed into the open file from offset zero; a copy error returns at
once; a byte-exact copy returns success; a wrong-sized copy removes and
recreates the file (`tryRemove` then `tryOpen`, fetch.go lines 158-166)
and moves on.  When the loop runs out of sources it returns the
download-exhausted error of fetch.go line 176. -/
def downloadLoop (client : String → GetResult) (partPath : String)
    (expectedBytes : Nat) (sources : List PartSource)
    (file : List Nat) (gets : List String) : FetchOutcome :=
  match sources with
  | [] =>
    { err := some ("Failed to complete download of " ++ partPath),
      file := some file, gets := gets }
  | source :: rest =>
    match client source.URL with
    | GetResult.reqError _ =>
      downloadLoop client partPath expectedBytes rest file (gets ++ [source.URL])
    | GetResult.resp status body =>
      if status ≠ 200 then
        downloadLoop client partPath expectedBytes rest file (gets ++ [source.URL])
      else
        match body with
        | CopyBehavior.ioErr written msg =>
          { err := some ("IO copy from HTTP response body failed on part: "
                ++ partPath ++ ". Error: " ++ msg),
            file := some (writeAt0 written file), gets := gets ++ [source.URL] }
        | CopyBehavior.ok bytes =>
          if bytes.length = expectedBytes then
            { err := none, file := some (writeAt0 bytes file),
              gets := gets ++ [source.URL] }
          else
            downloadLoop client partPath expectedBytes rest [] (gets ++ [source.URL])

/-- `fetchPkgPart` (fetch.go lines 97-177).  The function opens (or
creates) the file at `partPath`; only when that open failed with EEXIST
does it stat the file, skip the download when the size already matches
`expectedBytes`, and otherwise delete and recreate the file (fetch.go
lines 118-142).  Because `tryOpen` sets `O_CREATE` without `O_EXCL` it
never reports EEXIST, so that resume branch is unreachable and control
always proceeds to the source loop with the opened (untruncated) file. -/
def fetchPkgPart (client : String → GetResult) (partPath : String)
    (expectedBytes : Nat) (sources : List PartSource)
    (fs : Option (List Nat)) : FetchOutcome :=
  let opened := tryOpen fs
  if isExist opened.2 then
    -- fetch.go lines 118-142: the resume / cleanup branch, guarded by
    -- os.IsExist(openErr); stat succeeds on the existing file
    if opened.1.length = expectedBytes then
      { err := none, file := fs, gets := [] }
    else
      downloadLoop client partPath expectedBytes sources [] []
  else
    downloadLoop client partPath expectedBytes sources opened.1 []

/-- `verifyPkgPart` (fetch.go lines 180-190).  The signature check is not
implemented in the source: the function unconditionally returns a
`VerificationError` (with the garbled message of line 189) and performs
no filesystem operation, so the file state passes through unchanged. -/
def verifyPkgPart (userKeysDir partPath : String) (signatures : List String)
    (fs : Option (List Nat)) : Option String × Option (List Nat) :=
  (some ("Verification of failed of part " ++ partPath), fs)

/-- `path.Join` for the shapes this program builds (a cleaned directory
path and a relative file name): concatenation with one separator. -/
def pathJoin (a b : String) : String :=
  a ++ "/" ++ b

/-- `filepath.Abs` (used at fetch.go line 208): resolves a path to its
absolute form; with a readable working directory it never fails, so the
error component is always `none` (the program only ever inspects that
error, never the resolved path, so the model keeps the path itself). -/
def filepathAbs (p : String) : String × Option String :=
  (p, none)

/-- Assignment into a Go map modelled as an association list: overwrite
the value when the key is present, append the binding otherwise. -/
def mapAssign (m : List (String × Option String)) (k : String)
    (v : Option String) : List (String × Option String) :=
  match m with
  | [] => [(k, v)]
  | (k1, v1) :: rest =>
    if k1 = k then (k, v) :: rest else (k1, v1) :: mapAssign rest k v

/-- Rendering of the error recorder for the aggregate message of
fetch.go line 246 (fmt `%v` of the recorder struct). -/
def renderErrors : List (String × Option String) → String
  | [] => ""
  | (k, v) :: rest => k ++ ":" ++ v.getD "nil" ++ " " ++ renderErrors rest

/-- State threaded through the part tasks of `fetchAndVerify`: the
error-recorder map `Errors` (fetch.go lines 85-95), the `fetched` path
list, the GET trace, and the filesystem. -/
structure OrchState where
  Errors : List (String × Option String)
  fetched : List String
  gets : List String
  fs : FS

/-- The `addResult` closure of `fetchAndVerify` (fetch.go lines 196-214).
A non-nil error is recorded in the map under the part name.  Otherwise,
for a non-empty path, `filepath.Abs` is computed into the closure
parameter `err`; the path is appended to `fetched` only when Abs FAILED
(fetch.go line 209 tests `err != nil` after the reassignment), and the
Abs error - nil on success - is then stored in the map, so a successful
part still creates a map entry. -/
def addResult (st : OrchState) (id : String) (err : Option String)
    (partPath : String) : OrchState :=
  match err with
  | some e => { st with Errors := mapAssign st.Errors id (some e) }
  | none =>
    if partPath ≠ "" then
      let a := filepathAbs partPath
      let newFetched := if a.2.isSome then st.fetched ++ [a.1] else st.fetched
      { st with fetched := newFetched, Errors := mapAssign st.Errors id a.2 }
    else
      st

/-- One part task of `fetchAndVerify` (fetch.go lines 223-240): build the
part path by joining the DESTINATION directory with the part name (not
the package subdirectory), fetch, record the result, and - only when the
error map is still empty - verify and record that result too.  The source
runs one goroutine per part; this embedding runs the tasks in list order,
which is one schedule of the Go program (and the only one when the
package has at most one part). -/
def runPartTask (client : String → GetResult) (destinationDir userKeysDir : String)
    (st : OrchState) (name : String) (part : DockerImagePart) : OrchState :=
  let partPath := pathJoin destinationDir name
  let r := fetchPkgPart client partPath part.Bytes part.Sources (st.fs partPath)
  let st1 : OrchState :=
    { st with gets := st.gets ++ r.gets,
              fs := fun p => if p = partPath then r.file else st.fs p }
  let st2 := addResult st1 name r.err partPath
  if st2.Errors.length = 0 then
    let v := verifyPkgPart userKeysDir partPath part.Signatures (st2.fs partPath)
    let st3 : OrchState :=
      { st2 with fs := fun p => if p = partPath then v.2 else st2.fs p }
    addResult st3 name v.1 partPath
  else
    st2

/-- Result of `fetchAndVerify` and of `PkgFetch`: the returned path list
and error, plus the part-level GET trace and the final filesystem. -/
structure FAVResult where
  fetched : List String
  err : Option String
  gets : List String
  fs : FS

/-- `fetchAndVerify` (fetch.go lines 192-250): run one task per part,
wait for all of them, and fail with the aggregate error when the error
map is non-empty, returning the collected path list otherwise (the Go
`nil, fmt.Errorf(...)` return maps to an empty list plus `some`). -/
def fetchAndVerify (client : String → GetResult)
    (parts : List (String × DockerImagePart))
    (destinationDir userKeysDir : String) (fs0 : FS) : FAVResult :=
  let final := parts.foldl
    (fun st p => runPartTask client destinationDir userKeysDir st p.1 p.2)
    { Errors := [], fetched := [], gets := [], fs := fs0 }
  if final.Errors.length > 0 then
    { fetched := [],
      err := some ("Error fetching parts. Errors: " ++ renderErrors final.Errors),
      gets := final.gets, fs := final.fs }
  else
    { fetched := final.fetched, err := none, gets := final.gets, fs := final.fs }

/-- Lookup in the provenance map `Meta.Provides.Images` (an association
list standing for the Go map). -/
def lookupImages : List (String × String) → String → Option String
  | [], _ => none
  | (k, v) :: rest, key => if k = key then some v else lookupImages rest key

/-- The manifest-integrity error of fetch.go line 66.  The source renders
the whole part struct with fmt `%v`; the model renders its identifying
field. -/
def precheckErrMsg (part : DockerImagePart) : String :=
  "Error in pkg file: Meta.Provides is expected to contain metadata about each part and it is missing info about part " ++ part.ID

/-- The loop body of `precheckPkgParts` over the part mapping. -/
def precheckGo (images : List (String × String)) :
    List (String × DockerImagePart) → Option String
  | [] => none
  | (_, part) :: rest =>
    match lookupImages images part.ID with
    | none => some (precheckErrMsg part)
    | some _ => precheckGo images rest

/-- `precheckPkgParts` (fetch.go lines 62-73): every part of the mapping
must have a provenance entry keyed by the part identity in
`Meta.Provides.Images`; the first part without one yields the
manifest-integrity error. -/
def precheckPkgParts (pkg : Pkg) : Option String :=
  precheckGo pkg.Meta.Provides.Images pkg.Parts

/-- `fetchPkgMeta` (fetch.go lines 29-60): one GET of the package URL,
require status 200, read the body (on a read error the source keeps the
bytes read so far and never checks that error, line 43), decode it with
`json.Unmarshal` (supplied here as a decoder function, the JSON library
being external), and persist the raw body to
`destinationDir/<pkg.ID>.json` via `writeFile` (fetch.go lines 18-26). -/
def fetchPkgMeta (client : String → GetResult) (decode : List Nat → Option Pkg)
    (pkgURL destinationDir : String) (fs : FS) : Except String (Pkg × FS) :=
  match client pkgURL with
  | GetResult.reqError m => Except.error m
  | GetResult.resp status body =>
    if status ≠ 200 then
      Except.error ("Unexpected status code in response to Horizon Pkg fetch: "
        ++ toString status)
    else
      let raw := match body with
        | CopyBehavior.ok bytes => bytes
        | CopyBehavior.ioErr written _ => written
      match decode raw with
      | none => Except.error "json: cannot unmarshal Pkg body"
      | some pkg =>
        Except.ok (pkg, fun p =>
          if p = pathJoin destinationDir (pkg.ID ++ ".json") then some raw
          else fs p)

/-- Result of `PkgFetch`: returned paths and error, the part-level GET
trace (the manifest GET is not counted here), and the filesystem. -/
structure PkgFetchResult where
  fetched : List String
  err : Option String
  partGets : List String
  fs : FS

/-- `PkgFetch` (fetch.go lines 254-283): fetch and persist the manifest,
precheck it, create the package subdirectory
`path.Join(destinationDir, pkg.ID)` with `os.MkdirAll` (a directory
creation, with no effect on the file map of this model - note the source
never uses that directory afterwards), then run `fetchAndVerify` on the
DESTINATION directory and return its result. -/
def PkgFetch (client : String → GetResult) (decode : List Nat → Option Pkg)
    (pkgURL destinationDir userKeysDir : String) (fs0 : FS) : PkgFetchResult :=
  match fetchPkgMeta client decode pkgURL destinationDir fs0 with
  | Except.error e => { fetched := [], err := some e, partGets := [], fs := fs0 }
  | Except.ok (pkg, fs1) =>
    match precheckPkgParts pkg with
    | some e => { fetched := [], err := some e, partGets := [], fs := fs1 }
    | none =>
      let r := fetchAndVerify client pkg.Parts destinationDir userKeysDir fs1
      { fetched := r.fetched, err := r.err, partGets := r.gets, fs := r.fs }

/-! Concrete inputs used to evaluate the embedded code on the claims that
the code violates. -/

/-- Client whose only source serves a complete 3-byte body. -/
def c2client : String → GetResult :=
  fun _ => GetResult.resp 200 (CopyBehavior.ok [7, 7, 7])

/-- Claim C2: a part whose target file already exists with exactly the
expected size is supposed to be skipped with zero HTTP GETs.  Evaluating
the embedded `fetchPkgPart` on such a file (3 bytes on disk, 3 expected)
shows the code issues a GET to the source anyway: the resume branch is
dead because the open never reports EEXIST. -/
theorem c2_code_bug_eval :
    (fetchPkgPart c2client "/d/a" 3 [⟨"u"⟩] (some [9, 9, 9])).gets = ["u"] ∧
    (fetchPkgPart c2client "/d/a" 3 [⟨"u"⟩] (some [9, 9, 9])).err = none :=
  ⟨rfl, rfl⟩

/-- Client whose only source serves a complete body of 3 bytes. -/
def c6client : String → GetResult :=
  fun _ => GetResult.resp 200 (CopyBehavior.ok [2, 2, 2])

/-- Claim C6: with a pre-existing 5-byte file and 3 expected bytes, the
delete-on-size-mismatch step is supposed to leave exactly 3 bytes after a
successful download.  Evaluating the embedded `fetchPkgPart` shows the
call succeeds but leaves a 5-byte file: the mismatch branch is dead and
the file is opened without truncation, so the stale 2-byte tail
survives. -/
theorem c6_code_bug_eval :
    (fetchPkgPart c6client "/d/a" 3 [⟨"u"⟩] (some [1, 1, 1, 1, 1])).err = none ∧
    (fetchPkgPart c6client "/d/a" 3 [⟨"u"⟩] (some [1, 1, 1, 1, 1])).file =
      some [2, 2, 2, 1, 1] :=
  ⟨rfl, rfl⟩

/-- Claim C4: a failing verification is supposed to delete the part file
before reporting.  Evaluating the embedded `verifyPkgPart` shows it
reports the verification error while leaving the file contents in
place. -/
theorem c4_code_bug_eval :
    verifyPkgPart "/k" "/d/a" ["sig"] (some [1, 2]) =
      (some ("Verification of failed of part /d/a"), some [1, 2]) :=
  rfl

/-- Claim C5: a part with an empty declared signature list is supposed to
pass verification trivially.  Evaluating the embedded `verifyPkgPart` on
an empty signature list shows it still returns a verification error. -/
theorem c5_code_bug_eval :
    (verifyPkgPart "/k" "/d/b" [] (some [3])).1 =
      some ("Verification of failed of part /d/b") :=
  rfl

/-- A one-part package whose single source serves its complete 1-byte
body. -/
def c1part : DockerImagePart :=
  { ID := "ida", Bytes := 1, Sources := [⟨"u"⟩], Signatures := [] }

/-- Client serving the body of `c1part` on every URL. -/
def c1client : String → GetResult :=
  fun _ => GetResult.resp 200 (CopyBehavior.ok [5])

/-- Claim C1: a package whose every part downloads (and would verify)
successfully is supposed to yield a nil error and one absolute path per
part.  Evaluating the embedded `fetchAndVerify` on a one-part package
whose download succeeds shows it returns a non-nil aggregate error and an
empty path list: `addResult` stores the nil `filepath.Abs` error in the
error map and only appends the path when Abs fails. -/
theorem c1_code_bug_eval :
    (fetchAndVerify c1client [("a", c1part)] "/d" "/k" (fun _ => none)).err =
      some "Error fetching parts. Errors: a:nil " ∧
    (fetchAndVerify c1client [("a", c1part)] "/d" "/k" (fun _ => none)).fetched =
      [] :=
  ⟨rfl, rfl⟩

/-- The part of the C3 package. -/
def c3part : DockerImagePart :=
  { ID := "ida", Bytes := 1, Sources := [⟨"u"⟩], Signatures := [] }

/-- The C3 package: identity `p`, one part named `a` with provenance. -/
def c3pkg : Pkg :=
  { ID := "p", Meta := { Provides := { Images := [("ida", "tag")] } },
    Parts := [("a", c3part)] }

/-- Client for C3: the manifest URL serves the raw manifest body `[0]`,
every other URL serves the 1-byte part body. -/
def c3client : String → GetResult :=
  fun url =>
    if url = "m" then GetResult.resp 200 (CopyBehavior.ok [0])
    else GetResult.resp 200 (CopyBehavior.ok [5])

/-- Decoder for C3: the raw manifest body `[0]` decodes to `c3pkg`. -/
def c3decode : List Nat → Option Pkg :=
  fun b => if b = [0] then some c3pkg else none

/-- Claim C3: part files are supposed to be created inside the package
subdirectory `destinationDir/pkg.ID`.  Evaluating the embedded `PkgFetch`
shows the downloaded part lands at `/d/a`, not at `/d/p/a`: the package
subdirectory is created but `fetchAndVerify` is handed the destination
directory itself. -/
theorem c3_code_bug_eval :
    (PkgFetch c3client c3decode "m" "/d" "/k" (fun _ => none)).fs "/d/a" =
      some [5] ∧
    (PkgFetch c3client c3decode "m" "/d" "/k" (fun _ => none)).fs "/d/p/a" =
      none :=
  ⟨rfl, rfl⟩

/-! Predicates classifying the response a client gives for one source,
used to state the source-iteration claims. -/

/-- A GET that fails outright (request error or non-200 status): the loop
logs and moves on without reading the body or touching the file. -/
def hardFails : GetResult → Bool
  | GetResult.reqError _ => true
  | GetResult.resp status _ => status != 200

/-- A source attempt that fails without aborting the loop: a request
error, a non-200 status, or a completely streamed body of the wrong
size. -/
def failsOver (expectedBytes : Nat) : GetResult → Bool
  | GetResult.reqError _ => true
  | GetResult.resp status (CopyBehavior.ioErr _ _) => status != 200
  | GetResult.resp status (CopyBehavior.ok bytes) =>
      status != 200 || bytes.length != expectedBytes

/-- A byte-exact success: status 200 and a complete body of exactly the
expected size. -/
def exactHit (expectedBytes : Nat) : GetResult → Bool
  | GetResult.resp status (CopyBehavior.ok bytes) =>
      status == 200 && bytes.length == expectedBytes
  | _ => false

/-- The complete body of a response, when there is one. -/
def bodyBytes : GetResult → List Nat
  | GetResult.resp _ (CopyBehavior.ok bytes) => bytes
  | _ => []

theorem downloadLoop_skip (client : String → GetResult) (partPath : String)
    (expectedBytes : Nat) (s : PartSource) (rest : List PartSource)
    (file : List Nat) (gets : List String)
    (h : hardFails (client s.URL) = true) :
    downloadLoop client partPath expectedBytes (s :: rest) file gets =
      downloadLoop client partPath expectedBytes rest file (gets ++ [s.URL]) := by
  cases hc : client s.URL with
  | reqError m => simp [downloadLoop, hc]
  | resp status body =>
    rw [hc] at h
    simp only [hardFails, bne_iff_ne, ne_eq] at h
    simp [downloadLoop, hc, h]

theorem downloadLoop_hit (client : String → GetResult) (partPath : String)
    (expectedBytes : Nat) (s : PartSource) (rest : List PartSource)
    (file : List Nat) (gets : List String)
    (h : exactHit expectedBytes (client s.URL) = true) :
    downloadLoop client partPath expectedBytes (s :: rest) file gets =
      { err := none,
        file := some (writeAt0 (bodyBytes (client s.URL)) file),
        gets := gets ++ [s.URL] } := by
  cases hc : client s.URL with
  | reqError m => rw [hc] at h; simp [exactHit] at h
  | resp status body =>
    cases body with
    | ioErr w m => rw [hc] at h; simp [exactHit] at h
    | ok bytes =>
      rw [hc] at h
      simp only [exactHit, Bool.and_eq_true, beq_iff_eq] at h
      obtain ⟨h1, h2⟩ := h
      subst h1
      simp [downloadLoop, hc, h2, bodyBytes]

theorem downloadLoop_wrongsize (client : String → GetResult) (partPath : String)
    (expectedBytes : Nat) (s : PartSource) (rest : List PartSource)
    (file : List Nat) (gets : List String) (bytes : List Nat)
    (hc : client s.URL = GetResult.resp 200 (CopyBehavior.ok bytes))
    (h : bytes.length ≠ expectedBytes) :
    downloadLoop client partPath expectedBytes (s :: rest) file gets =
      downloadLoop client partPath expectedBytes rest [] (gets ++ [s.URL]) := by
  simp [downloadLoop, hc, h]

theorem downloadLoop_exhaust (client : String → GetResult) (partPath : String)
    (expectedBytes : Nat) :
    ∀ (sources : List PartSource) (file : List Nat) (gets : List String),
      (∀ x ∈ sources, failsOver expectedBytes (client x.URL) = true) →
      (downloadLoop client partPath expectedBytes sources file gets).err =
        some ("Failed to complete download of " ++ partPath) ∧
      (downloadLoop client partPath expectedBytes sources file gets).gets =
        gets ++ sources.map PartSource.URL := by
  intro sources
  induction sources with
  | nil => intro file gets _; simp [downloadLoop]
  | cons s rest ih =>
    intro file gets h
    have hs := h s (List.mem_cons_self s rest)
    have hrest : ∀ x ∈ rest, failsOver expectedBytes (client x.URL) = true :=
      fun x hx => h x (List.mem_cons_of_mem s hx)
    cases hc : client s.URL with
    | reqError m =>
      rw [downloadLoop_skip client partPath expectedBytes s rest file gets
        (by rw [hc]; rfl)]
      have := ih file (gets ++ [s.URL]) hrest
      simpa [List.append_assoc] using this
    | resp status body =>
      rw [hc] at hs
      cases body with
      | ioErr w m =>
        rw [downloadLoop_skip client partPath expectedBytes s rest file gets
          (by rw [hc]; exact hs)]
        have := ih file (gets ++ [s.URL]) hrest
        simpa [List.append_assoc] using this
      | ok bytes =>
        by_cases h200 : status = 200
        · subst h200
          have hlen : bytes.length ≠ expectedBytes := by simpa [failsOver] using hs
          rw [downloadLoop_wrongsize client partPath expectedBytes s rest file
            gets bytes hc hlen]
          have := ih [] (gets ++ [s.URL]) hrest
          simpa [List.append_assoc] using this
        · rw [downloadLoop_skip client partPath expectedBytes s rest file gets
            (by rw [hc]; simp [hardFails, h200])]
          have := ih file (gets ++ [s.URL]) hrest
          simpa [List.append_assoc] using this

theorem downloadLoop_first_hit (client : String → GetResult) (partPath : String)
    (expectedBytes : Nat) (s : PartSource) (post : List PartSource)
    (hs : exactHit expectedBytes (client s.URL) = true) :
    ∀ (pre : List PartSource) (file : List Nat) (gets : List String),
      (∀ x ∈ pre, failsOver expectedBytes (client x.URL) = true) →
      (downloadLoop client partPath expectedBytes (pre ++ s :: post) file gets).err =
        none ∧
      (downloadLoop client partPath expectedBytes (pre ++ s :: post) file gets).gets =
        gets ++ (pre ++ [s]).map PartSource.URL := by
  intro pre
  induction pre with
  | nil =>
    intro file gets _
    rw [List.nil_append,
      downloadLoop_hit client partPath expectedBytes s post file gets hs]
    simp
  | cons x pr ih =>
    intro file gets h
    have hx := h x (List.mem_cons_self x pr)
    have hpr : ∀ y ∈ pr, failsOver expectedBytes (client y.URL) = true :=
      fun y hy => h y (List.mem_cons_of_mem x hy)
    rw [List.cons_append]
    cases hc : client x.URL with
    | reqError m =>
      rw [downloadLoop_skip client partPath expectedBytes x (pr ++ s :: post)
        file gets (by rw [hc]; rfl)]
      have := ih file (gets ++ [x.URL]) hpr
      simpa [List.append_assoc] using this
    | resp status body =>
      rw [hc] at hx
      cases body with
      | ioErr w m =>
        rw [downloadLoop_skip client partPath expectedBytes x (pr ++ s :: post)
          file gets (by rw [hc]; exact hx)]
        have := ih file (gets ++ [x.URL]) hpr
        simpa [List.append_assoc] using this
      | ok bytes =>
        by_cases h200 : status = 200
        · subst h200
          have hlen : bytes.length ≠ expectedBytes := by simpa [failsOver] using hx
          rw [downloadLoop_wrongsize client partPath expectedBytes x
            (pr ++ s :: post) file gets bytes hc hlen]
          have := ih [] (gets ++ [x.URL]) hpr
          simpa [List.append_assoc] using this
        · rw [downloadLoop_skip client partPath expectedBytes x (pr ++ s :: post)
            file gets (by rw [hc]; simp [hardFails, h200])]
          have := ih file (gets ++ [x.URL]) hpr
          simpa [List.append_assoc] using this

theorem downloadLoop_hardfail_prefix (client : String → GetResult)
    (partPath : String) (expectedBytes : Nat) :
    ∀ (pre rest : List PartSource) (file : List Nat) (gets : List String),
      (∀ x ∈ pre, hardFails (client x.URL) = true) →
      downloadLoop client partPath expectedBytes (pre ++ rest) file gets =
        downloadLoop client partPath expectedBytes rest file
          (gets ++ pre.map PartSource.URL) := by
  intro pre
  induction pre with
  | nil => intro rest file gets _; simp
  | cons x pr ih =>
    intro rest file gets h
    rw [List.cons_append,
      downloadLoop_skip client partPath expectedBytes x (pr ++ rest) file gets
        (h x (List.mem_cons_self x pr)),
      ih rest file (gets ++ [x.URL])
        (fun y hy => h y (List.mem_cons_of_mem x hy))]
    simp

/-- `fetchPkgPart` always reaches the source loop, starting from the
opened (untruncated) file and an empty GET trace: the resume branch of
the source is guarded by an EEXIST error the open never produces. -/
theorem fetchPkgPart_eq_downloadLoop (client : String → GetResult)
    (partPath : String) (expectedBytes : Nat) (sources : List PartSource)
    (fs : Option (List Nat)) :
    fetchPkgPart client partPath expectedBytes sources fs =
      downloadLoop client partPath expectedBytes sources (fs.getD []) [] :=
  rfl

/-- Claim C7: `fetchPkgPart` tries the sources of a part in declaration
order; a source whose GET fails or returns a non-200 status is skipped
without modifying the file; the loop stops at the first source whose
streamed body has exactly the expected byte count; and when every source
fails without a byte-exact success it returns the download-exhausted
error naming the target path.  Stated as: (1) after any run of
non-aborting failures, the first byte-exact source yields success with
exactly one GET per attempted source, in order; (2) when the failing
run consists of request errors and non-200 statuses only, the file going
into the successful copy is the original one (the body lands over the
originally opened content); (3) when every source fails without a
byte-exact success, the result is the download-exhausted error for the
target path after GETs to every source, in order. -/
theorem c7_sources_in_order (client : String → GetResult) (partPath : String)
    (expectedBytes : Nat) (fs : Option (List Nat)) :
    (∀ (pre : List PartSource) (s : PartSource) (post : List PartSource),
      (∀ x ∈ pre, failsOver expectedBytes (client x.URL) = true) →
      exactHit expectedBytes (client s.URL) = true →
      (fetchPkgPart client partPath expectedBytes (pre ++ s :: post) fs).err =
        none ∧
      (fetchPkgPart client partPath expectedBytes (pre ++ s :: post) fs).gets =
        (pre ++ [s]).map PartSource.URL) ∧
    (∀ (pre : List PartSource) (s : PartSource) (post : List PartSource),
      (∀ x ∈ pre, hardFails (client x.URL) = true) →
      exactHit expectedBytes (client s.URL) = true →
      (fetchPkgPart client partPath expectedBytes (pre ++ s :: post) fs).file =
        some (writeAt0 (bodyBytes (client s.URL)) (fs.getD []))) ∧
    (∀ sources : List PartSource,
      (∀ x ∈ sources, failsOver expectedBytes (client x.URL) = true) →
      (fetchPkgPart client partPath expectedBytes sources fs).err =
        some ("Failed to complete download of " ++ partPath) ∧
      (fetchPkgPart client partPath expectedBytes sources fs).gets =
        sources.map PartSource.URL) := by
  refine ⟨?_, ?_, ?_⟩
  · intro pre s post hpre hhit
    have := downloadLoop_first_hit client partPath expectedBytes s post hhit pre
      (fs.getD []) [] hpre
    simpa [fetchPkgPart_eq_downloadLoop] using this
  · intro pre s post hpre hhit
    rw [fetchPkgPart_eq_downloadLoop,
      downloadLoop_hardfail_prefix client partPath expectedBytes pre (s :: post)
        (fs.getD []) [] hpre,
      downloadLoop_hit client partPath expectedBytes s post (fs.getD [])
        ([] ++ pre.map PartSource.URL) hhit]
  · intro sources hall
    have := downloadLoop_exhaust client partPath expectedBytes sources
      (fs.getD []) [] hall
    simpa [fetchPkgPart_eq_downloadLoop] using this

/-- Client for the C7 witness: the first source refuses the connection,
the second serves the complete 2-byte body. -/
def c7client : String → GetResult :=
  fun url =>
    if url = "u1" then GetResult.reqError "connection refused"
    else if url = "u2" then GetResult.resp 200 (CopyBehavior.ok [1, 2])
    else GetResult.reqError "unreachable"

theorem c7_sources_in_order_witness :
    (fetchPkgPart c7client "/d/a" 2 [⟨"u1"⟩, ⟨"u2"⟩] none).err = none ∧
    (fetchPkgPart c7client "/d/a" 2 [⟨"u1"⟩, ⟨"u2"⟩] none).gets =
      ([(⟨"u1"⟩ : PartSource)] ++ [(⟨"u2"⟩ : PartSource)]).map PartSource.URL := by
  have h := (c7_sources_in_order c7client "/d/a" 2 none).1 [⟨"u1"⟩] ⟨"u2"⟩ []
    (by decide) (by decide)
  exact ⟨h.1, h.2⟩

/-- Claim C10: when streaming a response body into the part file fails
with a copy error, `fetchPkgPart` returns that error immediately: the
remaining sources receive no GET and the partially written file stays in
place (the written portion over the originally opened content). -/
theorem c10_io_copy_abort (client : String → GetResult) (partPath : String)
    (expectedBytes : Nat) (s : PartSource) (rest : List PartSource)
    (fs : Option (List Nat)) (written : List Nat) (m : String)
    (h : client s.URL = GetResult.resp 200 (CopyBehavior.ioErr written m)) :
    (fetchPkgPart client partPath expectedBytes (s :: rest) fs).err =
      some ("IO copy from HTTP response body failed on part: " ++ partPath
        ++ ". Error: " ++ m) ∧
    (fetchPkgPart client partPath expectedBytes (s :: rest) fs).gets =
      [s.URL] ∧
    (fetchPkgPart client partPath expectedBytes (s :: rest) fs).file =
      some (writeAt0 written (fs.getD [])) := by
  refine ⟨?_, ?_, ?_⟩ <;>
    simp [fetchPkgPart_eq_downloadLoop, downloadLoop, h]

/-- Client for the C10 witness: every source starts streaming and fails
after one byte. -/
def c10client : String → GetResult :=
  fun _ => GetResult.resp 200 (CopyBehavior.ioErr [9] "broken pipe")

theorem c10_io_copy_abort_witness :
    (fetchPkgPart c10client "/d/a" 4 [⟨"u"⟩, ⟨"v"⟩] (some [8, 8])).err =
      some ("IO copy from HTTP response body failed on part: " ++ "/d/a"
        ++ ". Error: " ++ "broken pipe") ∧
    (fetchPkgPart c10client "/d/a" 4 [⟨"u"⟩, ⟨"v"⟩] (some [8, 8])).gets =
      [(⟨"u"⟩ : PartSource).URL] ∧
    (fetchPkgPart c10client "/d/a" 4 [⟨"u"⟩, ⟨"v"⟩] (some [8, 8])).file =
      some (writeAt0 [9] ((some [8, 8] : Option (List Nat)).getD [])) :=
  c10_io_copy_abort c10client "/d/a" 4 ⟨"u"⟩ [⟨"v"⟩] (some [8, 8]) [9]
    "broken pipe" rfl

theorem precheckGo_isSome (images : List (String × String)) :
    ∀ parts : List (String × DockerImagePart),
      (precheckGo images parts).isSome = true ↔
        ∃ e ∈ parts, lookupImages images e.2.ID = none := by
  intro parts
  induction parts with
  | nil => simp [precheckGo]
  | cons p rest ih =>
    obtain ⟨name, part⟩ := p
    cases hl : lookupImages images part.ID with
    | none =>
      simp only [precheckGo, hl, Option.isSome_some, true_iff]
      exact ⟨(name, part), List.mem_cons_self _ _, hl⟩
    | some v =>
      simp only [precheckGo, hl, ih, List.mem_cons]
      constructor
      · rintro ⟨e, he, hme⟩
        exact ⟨e, Or.inr he, hme⟩
      · rintro ⟨e, he, hme⟩
        rcases he with he | he
        · subst he
          simp [hl] at hme
        · exact ⟨e, he, hme⟩

theorem precheckGo_msg (images : List (String × String)) :
    ∀ (parts : List (String × DockerImagePart)) (msg : String),
      precheckGo images parts = some msg →
      ∃ e ∈ parts, lookupImages images e.2.ID = none ∧
        msg = precheckErrMsg e.2 := by
  intro parts
  induction parts with
  | nil => intro msg h; simp [precheckGo] at h
  | cons p rest ih =>
    obtain ⟨name, part⟩ := p
    intro msg h
    cases hl : lookupImages images part.ID with
    | none =>
      rw [precheckGo, hl] at h
      exact ⟨(name, part), List.mem_cons_self _ _, hl,
        (Option.some_inj.mp h).symm⟩
    | some v =>
      rw [precheckGo, hl] at h
      obtain ⟨e, he, hme, hmsg⟩ := ih msg h
      exact ⟨e, List.mem_cons_of_mem _ he, hme, hmsg⟩

/-- Claim C8: `precheckPkgParts` returns an error exactly when some part
of the part mapping has no entry keyed by its identity in
`Meta.Provides.Images`; the error is the manifest-integrity message
naming such a part; and when the precheck fails, `PkgFetch` (after a
successful manifest fetch decoding to this package) returns that error
with zero part-level GET requests, the fan-out never having been
reached. -/
theorem c8_precheck (pkg : Pkg) (client : String → GetResult)
    (decode : List Nat → Option Pkg)
    (pkgURL destinationDir userKeysDir : String) (fs0 : FS) (raw : List Nat) :
    ((precheckPkgParts pkg).isSome = true ↔
      ∃ e ∈ pkg.Parts, lookupImages pkg.Meta.Provides.Images e.2.ID = none) ∧
    (∀ msg : String, precheckPkgParts pkg = some msg →
      ∃ e ∈ pkg.Parts, lookupImages pkg.Meta.Provides.Images e.2.ID = none ∧
        msg = precheckErrMsg e.2) ∧
    (client pkgURL = GetResult.resp 200 (CopyBehavior.ok raw) →
      decode raw = some pkg →
      ∀ msg : String, precheckPkgParts pkg = some msg →
      (PkgFetch client decode pkgURL destinationDir userKeysDir fs0).partGets =
        [] ∧
      (PkgFetch client decode pkgURL destinationDir userKeysDir fs0).err =
        some msg) := by
  refine ⟨precheckGo_isSome pkg.Meta.Provides.Images pkg.Parts,
    precheckGo_msg pkg.Meta.Provides.Images pkg.Parts, ?_⟩
  intro h1 h2 msg h3
  rw [PkgFetch, fetchPkgMeta, h1]
  simp [h2, h3]

/-- The part of the C8 witness package: its identity has no provenance
entry. -/
def c8part : DockerImagePart :=
  { ID := "ida", Bytes := 1, Sources := [⟨"u"⟩], Signatures := [] }

/-- The C8 witness package: one part, an empty provenance map. -/
def c8pkg : Pkg :=
  { ID := "p", Meta := { Provides := { Images := [] } },
    Parts := [("a", c8part)] }

/-- Client for the C8 witness: every URL serves the raw manifest body. -/
def c8client : String → GetResult :=
  fun _ => GetResult.resp 200 (CopyBehavior.ok [0])

/-- Decoder for the C8 witness. -/
def c8decode : List Nat → Option Pkg :=
  fun _ => some c8pkg

theorem c8_precheck_witness :
    (PkgFetch c8client c8decode "m" "/d" "/k" (fun _ => none)).partGets = [] ∧
    (PkgFetch c8client c8decode "m" "/d" "/k" (fun _ => none)).err =
      some (precheckErrMsg c8part) :=
  (c8_precheck c8pkg c8client c8decode "m" "/d" "/k" (fun _ => none) [0]).2.2
    rfl rfl (precheckErrMsg c8part) rfl

/-- Claim C9: a package whose part mapping is empty is a trivially
successful fetch: `fetchAndVerify` returns an empty path list and no
error, and so does `PkgFetch` after a successful manifest fetch (the
precheck passes vacuously). -/
theorem c9_empty_parts (client : String → GetResult)
    (decode : List Nat → Option Pkg)
    (pkgURL destinationDir userKeysDir : String) (fs0 : FS)
    (raw : List Nat) (pkg : Pkg)
    (h1 : client pkgURL = GetResult.resp 200 (CopyBehavior.ok raw))
    (h2 : decode raw = some pkg) (h3 : pkg.Parts = []) :
    (fetchAndVerify client pkg.Parts destinationDir userKeysDir fs0).fetched =
      [] ∧
    (fetchAndVerify client pkg.Parts destinationDir userKeysDir fs0).err =
      none ∧
    (PkgFetch client decode pkgURL destinationDir userKeysDir fs0).fetched =
      [] ∧
    (PkgFetch client decode pkgURL destinationDir userKeysDir fs0).err =
      none := by
  have hfav : ∀ fs : FS,
      (fetchAndVerify client pkg.Parts destinationDir userKeysDir fs).fetched =
        [] ∧
      (fetchAndVerify client pkg.Parts destinationDir userKeysDir fs).err =
        none := by
    intro fs
    rw [h3]
    exact ⟨rfl, rfl⟩
  refine ⟨(hfav fs0).1, (hfav fs0).2, ?_⟩
  have hpre : precheckPkgParts pkg = none := by
    rw [precheckPkgParts, h3]
    rfl
  rw [PkgFetch, fetchPkgMeta, h1]
  simp only [h2, hpre, ne_eq, not_true_eq_false, if_false, ite_false,
    not_false_eq_true, if_true, ite_true]
  exact ⟨(hfav _).1, (hfav _).2⟩

/-- The C9 witness package: no parts. -/
def c9pkg : Pkg :=
  { ID := "p", Meta := { Provides := { Images := [] } }, Parts := [] }

/-- Client for the C9 witness. -/
def c9client : String → GetResult :=
  fun _ => GetResult.resp 200 (CopyBehavior.ok [0])

/-- Decoder for the C9 witness. -/
def c9decode : List Nat → Option Pkg :=
  fun _ => some c9pkg

theorem c9_empty_parts_witness :
    (fetchAndVerify c9client c9pkg.Parts "/d" "/k" (fun _ => none)).fetched =
      [] ∧
    (fetchAndVerify c9client c9pkg.Parts "/d" "/k" (fun _ => none)).err =
      none ∧
    (PkgFetch c9client c9decode "m" "/d" "/k" (fun _ => none)).fetched = [] ∧
    (PkgFetch c9client c9decode "m" "/d" "/k" (fun _ => none)).err = none :=
  c9_empty_parts c9client c9decode "m" "/d" "/k" (fun _ => none) [0] c9pkg
    rfl rfl rfl

end HorizonFetch
